import Mathlib

/-!
Verification of the nodefling error-handling library.

Shallow embedding of the core modules:
* `src/exceptions/base-exception.ts` — the `BaseException` class
  (`ExceptionRecord` here), its constructor defaults, `toResponse`,
  `isClientError` / `isServerError`, `isRetryable`, `addContext`,
  `addDetail`, `setRequestId`, `setUserId`;
* `src/exceptions/http-exceptions.ts` — variant presets spread under the
  caller options (`constructVariant`);
* `src/utils/error-utils.ts` — `isRetryableError`, `retryWithBackoff`,
  `validateRequiredFields`, `shouldLogError`;
* `src/constants/status-codes.ts` — `StatusCodeCategories`,
  `isStatusCodeCategory`, `getStatusCodeCategory`.

JavaScript runtime conventions used by the embedding: an absent object
property is `undefined` (modelled with `Option`), an object value is always
truthy (`objectIsTruthy`), assignment `m[k] = v` overwrites the first
binding of `k` or appends a fresh one (`recordSet`), and object spread
`{ ...preset, ...options }` lets a present key of `options` win
(`spreadOptions`).
-/

/-- A JavaScript value as far as the verified code inspects one:
`undefined`, `null`, a string, a number, a boolean.  The library only ever
compares these for (strict) equality or against `undefined`/`null`/`''`. -/
inductive JsValue where
  | undef
  | null
  | str (s : String)
  | num (n : Int)
  | bool (b : Bool)
deriving DecidableEq

/-- The `logLevel` union type `'error' | 'warn' | 'info' | 'debug'`. -/
inductive LogLevel where
  | error
  | warn
  | info
  | debug
deriving DecidableEq

/-- The numeric severity table `{ error: 0, warn: 1, info: 2, debug: 3 }`
from `shouldLogError` in `src/utils/error-utils.ts`. -/
def logLevelRank : LogLevel → Nat
  | .error => 0
  | .warn => 1
  | .info => 2
  | .debug => 3

/-- A JS object used as a string-keyed map (`Record<string, any>`),
as an association list in insertion order. -/
def JsRecord : Type := List (String × JsValue)

instance : DecidableEq JsRecord := inferInstanceAs (DecidableEq (List (String × JsValue)))

/-- Property read `m[k]`: the first binding of `k`, `none` when absent. -/
def recordGet (m : JsRecord) (k : String) : Option JsValue :=
  (m.find? (fun p => p.1 == k)).map (fun p => p.2)

/-- Property write `m[k] = v`: overwrite the binding of `k` in place,
or append a fresh binding when `k` is absent (JS object assignment). -/
def recordSet : JsRecord → String → JsValue → JsRecord
  | [], k, v => [(k, v)]
  | (k₀, v₀) :: rest, k, v =>
    if k₀ == k then (k, v) :: rest else (k₀, v₀) :: recordSet rest k v

/-- Does the object have a binding for key `k`? -/
def recordHasKey (m : JsRecord) (k : String) : Bool :=
  m.any (fun p => p.1 == k)

/-- JS truthiness of an object reference: every object — the empty object
`{}` included — is truthy.  `this.details` in `BaseException.toResponse`
is always an object, so the test `if (... || this.details)` sees `true`. -/
def objectIsTruthy (_m : JsRecord) : Bool := true

/-- The state of a `BaseException` instance
(`src/exceptions/base-exception.ts`).  `name` is `this.constructor.name`;
`timestamp` is an abstract clock value. -/
structure ExceptionRecord where
  name : String
  message : String
  statusCode : Int
  code : String
  details : JsRecord
  timestamp : Nat
  requestId : Option String
  userId : Option String
  context : JsRecord
  isOperational : Bool
  retryable : Bool
  logLevel : LogLevel
deriving DecidableEq

/-- The `ExceptionOptions` interface: every field optional
(`none` = the key is absent from the options object). -/
structure ExceptionOptions where
  message : Option String
  statusCode : Option Int
  code : Option String
  details : Option JsRecord
  timestamp : Option Nat
  requestId : Option String
  userId : Option String
  context : Option JsRecord
  isOperational : Option Bool
  retryable : Option Bool
  logLevel : Option LogLevel
deriving DecidableEq

/-- The empty options object `{}` (the default argument of every variant
constructor). -/
def emptyOptions : ExceptionOptions :=
  ⟨none, none, none, none, none, none, none, none, none, none, none⟩

/-- The `BaseException` constructor: destructures `options` with the
global defaults `message = 'An error occurred'`,
`statusCode = StatusCodes.INTERNAL_SERVER_ERROR` (500),
`code = 'INTERNAL_ERROR'`, `details = {}`, `timestamp = new Date()`
(the `now` argument), `context = {}`, `isOperational = true`,
`retryable = false`, `logLevel = 'error'`; `requestId` and `userId` have
no default and stay `undefined` when absent. -/
def baseConstructor (options : ExceptionOptions) (name : String) (now : Nat) :
    ExceptionRecord where
  name := name
  message := options.message.getD "An error occurred"
  statusCode := options.statusCode.getD 500
  code := options.code.getD "INTERNAL_ERROR"
  details := options.details.getD []
  timestamp := options.timestamp.getD now
  requestId := options.requestId
  userId := options.userId
  context := options.context.getD []
  isOperational := options.isOperational.getD true
  retryable := options.retryable.getD false
  logLevel := options.logLevel.getD .error

/-- Object spread `{ ...presetFields, ...options }` as performed by every
variant constructor's `super` call: a key present in `options` wins over
the preset value. -/
def spreadOptions (preset options : ExceptionOptions) : ExceptionOptions where
  message := options.message.or preset.message
  statusCode := options.statusCode.or preset.statusCode
  code := options.code.or preset.code
  details := options.details.or preset.details
  timestamp := options.timestamp.or preset.timestamp
  requestId := options.requestId.or preset.requestId
  userId := options.userId.or preset.userId
  context := options.context.or preset.context
  isOperational := options.isOperational.or preset.isOperational
  retryable := options.retryable.or preset.retryable
  logLevel := options.logLevel.or preset.logLevel

/-- A variant constructor `class V extends BaseException`: its `super` call
spreads the caller options over the variant's preset fields, and the class
name becomes `this.constructor.name`. -/
def constructVariant (preset options : ExceptionOptions) (name : String) (now : Nat) :
    ExceptionRecord :=
  baseConstructor (spreadOptions preset options) name now

/-- The preset of `NotFoundException` (`src/exceptions/http-exceptions.ts`):
`{ message: 'Not Found', statusCode: StatusCodes.NOT_FOUND (404),
code: 'NOT_FOUND' }`. -/
def notFoundPreset : ExceptionOptions :=
  { emptyOptions with
    message := some "Not Found"
    statusCode := some 404
    code := some "NOT_FOUND" }

/-- The preset of `BadRequestException`:
`{ message: 'Bad Request', statusCode: 400, code: 'BAD_REQUEST' }`. -/
def badRequestPreset : ExceptionOptions :=
  { emptyOptions with
    message := some "Bad Request"
    statusCode := some 400
    code := some "BAD_REQUEST" }

/-- The preset of `TooManyRequestsException`:
`{ message: 'Too Many Requests', statusCode: 429,
code: 'TOO_MANY_REQUESTS', retryable: true }`. -/
def tooManyRequestsPreset : ExceptionOptions :=
  { emptyOptions with
    message := some "Too Many Requests"
    statusCode := some 429
    code := some "TOO_MANY_REQUESTS"
    retryable := some true }

/-- Method `BaseException.isClientError()`:
`this.statusCode >= 400 && this.statusCode < 500`. -/
def isClientError (e : ExceptionRecord) : Bool :=
  400 ≤ e.statusCode && e.statusCode < 500

/-- Method `BaseException.isServerError()`:
`this.statusCode >= 500 && this.statusCode < 600`. -/
def isServerError (e : ExceptionRecord) : Bool :=
  500 ≤ e.statusCode && e.statusCode < 600

/-- Method `BaseException.isRetryable()`: `return this.retryable`. -/
def isRetryable (e : ExceptionRecord) : Bool :=
  e.retryable

/-- Method `BaseException.addContext(key, value)`:
`this.context[key] = value; return this`. -/
def addContext (e : ExceptionRecord) (k : String) (v : JsValue) : ExceptionRecord :=
  { e with context := recordSet e.context k v }

/-- Method `BaseException.addDetail(key, value)`:
`this.details[key] = value; return this`. -/
def addDetail (e : ExceptionRecord) (k : String) (v : JsValue) : ExceptionRecord :=
  { e with details := recordSet e.details k v }

/-- Method `BaseException.setRequestId(requestId)`: overwrite and return `this`. -/
def setRequestId (e : ExceptionRecord) (id : String) : ExceptionRecord :=
  { e with requestId := some id }

/-- Method `BaseException.setUserId(userId)`: overwrite and return `this`. -/
def setUserId (e : ExceptionRecord) (id : String) : ExceptionRecord :=
  { e with userId := some id }

/-- The `{ error: { ... } }` payload produced by `BaseException.toResponse`.
`details` and `requestId` are `Option` because the source adds those keys
conditionally. -/
structure ResponseError where
  name : String
  message : String
  code : String
  statusCode : Int
  details : Option JsRecord
  requestId : Option String
deriving DecidableEq

/-- Method `BaseException.toResponse()`.  `nodeEnvDevelopment` models
`process.env.NODE_ENV === 'development'`.  The source gates `details` on
`process.env.NODE_ENV === 'development' || this.details`, where
`this.details` is an object reference and hence always truthy; `requestId`
is added under `if (this.requestId)`, and the empty string is falsy. -/
def toResponse (e : ExceptionRecord) (nodeEnvDevelopment : Bool) : ResponseError where
  name := e.name
  message := e.message
  code := e.code
  statusCode := e.statusCode
  details :=
    if nodeEnvDevelopment || objectIsTruthy e.details then some e.details else none
  requestId :=
    match e.requestId with
    | some id => if id == "" then none else some id
    | none => none

/-- Character-list version of "`needle` is a leading segment of `hay`". -/
def charsLead : List Char → List Char → Bool
  | [], _ => true
  | _ :: _, [] => false
  | a :: as, b :: bs => a == b && charsLead as bs

/-- Character-list version of "`needle` occurs contiguously in `hay`". -/
def charsOccur (needle : List Char) : List Char → Bool
  | [] => charsLead needle []
  | b :: bs => charsLead needle (b :: bs) || charsOccur needle bs

/-- JavaScript `s.includes(sub)`: substring containment. -/
def strIncludes (s sub : String) : Bool :=
  charsOccur sub.data s.data

/-- Optional chaining `x?.includes(c)` on a string field: `undefined` when the
field is absent, which the surrounding disjunction treats as `false`. -/
def optIncludes (o : Option String) (c : String) : Bool :=
  match o with
  | some s => strIncludes s c
  | none => false

/-- A foreign (non-`BaseException`) error value, as far as
`isRetryableError` inspects one: optional `code`, `message`, `stack`
string fields. -/
structure ForeignError where
  code : Option String
  message : Option String
  stack : Option String
deriving DecidableEq

/-- An error value flowing through `src/utils/error-utils.ts`: either a
`BaseException` instance (`isBaseException` true) or a foreign error. -/
inductive ErrValue where
  | modeled (e : ExceptionRecord)
  | foreign (f : ForeignError)
deriving DecidableEq

/-- The `retryableErrors` array of `isRetryableError`, verbatim — the
source lists `'ECONNRESET'` twice. -/
def retryableErrors : List String :=
  ["ECONNRESET", "ECONNREFUSED", "ETIMEDOUT", "ENOTFOUND", "ENETUNREACH",
   "ECONNRESET", "EPIPE", "EAI_AGAIN"]

/-- Function `isRetryableError(error)`: a `BaseException` answers with
`error.isRetryable()`; otherwise
`retryableErrors.some(code => error.code === code ||
error.message?.includes(code) || error.stack?.includes(code))`. -/
def isRetryableError : ErrValue → Bool
  | .modeled e => isRetryable e
  | .foreign f =>
    retryableErrors.any (fun c =>
      f.code == some c || optIncludes f.message c || optIncludes f.stack c)

/-- Function `shouldLogError(error, logLevel = 'error')`: a `BaseException` is
logged when `logLevels[error.logLevel] <= logLevels[logLevel]`; a foreign
error only when the threshold is `'error'`. -/
def shouldLogError (x : ErrValue) (logLevel : LogLevel) : Bool :=
  match x with
  | .modeled e => logLevelRank e.logLevel ≤ logLevelRank logLevel
  | .foreign _ => logLevel == .error

/-- The test `obj[field] === undefined || obj[field] === null ||
obj[field] === ''` from `validateRequiredFields`, on the value found at
the field (`none` = key absent = `undefined`). -/
def isMissingValue (v : Option JsValue) : Bool :=
  match v with
  | none => true
  | some .undef => true
  | some .null => true
  | some (.str s) => s == ""
  | some _ => false

/-- Function `validateRequiredFields(obj, requiredFields)`: filter the missing
fields; when any, throw
``Missing required fields: ${missingFields.join(', ')}``. -/
def validateRequiredFields (obj : JsRecord) (requiredFields : List String) :
    Except String Unit :=
  let missingFields :=
    requiredFields.filter (fun field => isMissingValue (recordGet obj field))
  if missingFields.length > 0 then
    .error ("Missing required fields: " ++ String.intercalate ", " missingFields)
  else
    .ok ()

/-- The keys of the `StatusCodeCategories` object, in declaration order
(the iteration order of `Object.entries`). -/
inductive Category where
  | INFORMATIONAL
  | SUCCESS
  | REDIRECTION
  | CLIENT_ERROR
  | SERVER_ERROR
deriving DecidableEq

/-- The `StatusCodeCategories` table of `src/constants/status-codes.ts`. -/
def StatusCodeCategories : Category → List Int
  | .INFORMATIONAL => [100, 101, 102, 103]
  | .SUCCESS => [200, 201, 202, 203, 204, 205, 206, 207, 208, 226]
  | .REDIRECTION => [300, 301, 302, 303, 304, 305, 307, 308]
  | .CLIENT_ERROR =>
    [400, 401, 402, 403, 404, 405, 406, 407, 408, 409, 410, 411, 412, 413,
     414, 415, 416, 417, 418, 421, 422, 423, 424, 425, 426, 428, 429, 431, 451]
  | .SERVER_ERROR => [500, 501, 502, 503, 504, 505, 506, 507, 508, 510, 511]

/-- Iteration order of `Object.entries(StatusCodeCategories)`. -/
def categoryOrder : List Category :=
  [.INFORMATIONAL, .SUCCESS, .REDIRECTION, .CLIENT_ERROR, .SERVER_ERROR]

/-- Function `isStatusCodeCategory(statusCode, category)`:
`StatusCodeCategories[category].includes(statusCode)`. -/
def isStatusCodeCategory (statusCode : Int) (category : Category) : Bool :=
  (StatusCodeCategories category).any (fun x => x == statusCode)

/-- Function `getStatusCodeCategory(statusCode)`: scan `Object.entries` in order,
return the first category whose list contains the code, else `null`. -/
def getStatusCodeCategory (statusCode : Int) : Option Category :=
  categoryOrder.find? (fun category => isStatusCodeCategory statusCode category)

/-- Observable behaviour of one `retryWithBackoff` run: how many times the
operation was invoked, the delays slept between attempts (in order), and
the value returned or error thrown. -/
structure RetryTrace (A : Type) where
  calls : Nat
  delays : List Nat
  result : Except ErrValue A

/-- The `for (let attempt = 0; attempt <= maxRetries; attempt++)` loop of
`retryWithBackoff`, indexed by `remaining = maxRetries - attempt` so the
recursion is structural.  `op i` is the outcome of the `i`-th invocation of
`fn` (0-based).  At `remaining = 0` the loop body's test
`attempt === maxRetries || !isRetryableError(error)` throws regardless of
retryability; otherwise it throws exactly when the error is not retryable,
and else sleeps `Math.min(baseDelay * Math.pow(2, attempt), maxDelay)` and
retries. -/
def retryGo {A : Type} (op : Nat → Except ErrValue A) (baseDelay maxDelay : Nat) :
    Nat → Nat → RetryTrace A
  | 0, attempt =>
    match op attempt with
    | .ok a => ⟨1, [], .ok a⟩
    | .error e => ⟨1, [], .error e⟩
  | remaining + 1, attempt =>
    match op attempt with
    | .ok a => ⟨1, [], .ok a⟩
    | .error e =>
      if isRetryableError e then
        let t := retryGo op baseDelay maxDelay remaining (attempt + 1)
        ⟨t.calls + 1, min (baseDelay * 2 ^ attempt) maxDelay :: t.delays, t.result⟩
      else
        ⟨1, [], .error e⟩

/-- Function `retryWithBackoff(fn, maxRetries, baseDelay, maxDelay)`: run the loop
from `attempt = 0` with `maxRetries` retries remaining. -/
def retryWithBackoff {A : Type} (op : Nat → Except ErrValue A)
    (maxRetries baseDelay maxDelay : Nat) : RetryTrace A :=
  retryGo op baseDelay maxDelay maxRetries 0

/-- A `BaseException` subclass instance carrying a chosen status code and
otherwise default fields (mirrors the `TestServerException` pattern of the
test suite). -/
def recordWithStatus (s : Int) : ExceptionRecord :=
  constructVariant emptyOptions { emptyOptions with statusCode := some s }
    "TestException" 0

/-- Claim C3 (code bug witness): a `NotFoundException` built with no
options has an empty `details` map, yet `toResponse()` outside development
mode still carries the `details` key (`details: {}`), because the source
guards it with `process.env.NODE_ENV === 'development' || this.details`
and `this.details` — an object — is always truthy. -/
theorem toResponse_C3_bug :
    (constructVariant notFoundPreset emptyOptions "NotFoundException" 0).details = [] ∧
    (toResponse (constructVariant notFoundPreset emptyOptions "NotFoundException" 0)
        false).details = some [] :=
  ⟨rfl, rfl⟩

/-- Claim C4 (counterexample): status code 200 lies in `[100, 600)` but
satisfies neither `isClientError()` nor `isServerError()`, so the two
predicates are not jointly exhaustive over `[100, 600)`. -/
theorem isClientError_isServerError_C4_counterexample :
    (100 : Int) ≤ (recordWithStatus 200).statusCode ∧
    (recordWithStatus 200).statusCode < 600 ∧
    isClientError (recordWithStatus 200) = false ∧
    isServerError (recordWithStatus 200) = false := by
  decide

/-- Claim C4 (amended): `isClientError()` is true iff the status code is in
`[400, 500)` and `isServerError()` iff it is in `[500, 600)`; the two are
mutually exclusive for every status code, and jointly exhaustive over
`[400, 600)` (not over all of `[100, 600)`). -/
theorem isClientError_isServerError_C4 (r : ExceptionRecord) :
    (isClientError r = true ↔ 400 ≤ r.statusCode ∧ r.statusCode < 500) ∧
    (isServerError r = true ↔ 500 ≤ r.statusCode ∧ r.statusCode < 600) ∧
    (¬(isClientError r = true ∧ isServerError r = true)) ∧
    (400 ≤ r.statusCode → r.statusCode < 600 →
      (isClientError r = true ∨ isServerError r = true)) := by
  unfold isClientError isServerError
  simp only [Bool.and_eq_true, decide_eq_true_eq]
  refine ⟨trivial, trivial, fun h => ?_, fun h1 h2 => ?_⟩ <;> omega

/-- Claim C4 witness: status 404 is a client error by the amended
exhaustiveness over `[400, 600)`. -/
theorem isClientError_isServerError_C4_witness :
    isClientError (recordWithStatus 404) = true ∨
    isServerError (recordWithStatus 404) = true :=
  (isClientError_isServerError_C4 (recordWithStatus 404)).2.2.2 (by decide) (by decide)

/-- Claim C8: for a modeled exception, `shouldLogError` answers true iff
the severity rank of its `logLevel` is numerically at most the rank of the
threshold (ranks `error = 0`, `warn = 1`, `info = 2`, `debug = 3`); for an
unmodeled error, true iff the threshold is `'error'`. -/
theorem shouldLogError_C8 (e : ExceptionRecord) (f : ForeignError) (threshold : LogLevel) :
    (shouldLogError (.modeled e) threshold = true ↔
      logLevelRank e.logLevel ≤ logLevelRank threshold) ∧
    (shouldLogError (.foreign f) threshold = true ↔ threshold = .error) := by
  constructor
  · simp [shouldLogError]
  · cases threshold <;> simp [shouldLogError]

/-- Claim C8 witness: a modeled exception at the default `'error'` level is
logged under the `'debug'` threshold (rank 0 ≤ 3). -/
theorem shouldLogError_C8_witness :
    shouldLogError (.modeled (recordWithStatus 404)) .debug = true :=
  (shouldLogError_C8 (recordWithStatus 404) ⟨none, none, none⟩ .debug).1.mpr (by decide)

/-- Optional chaining `x?.includes(c)` is true exactly when the optional field is present
and contains the substring. -/
theorem optIncludes_eq_true_iff (o : Option String) (c : String) :
    optIncludes o c = true ↔ ∃ s, o = some s ∧ strIncludes s c = true := by
  cases o <;> simp [optIncludes]

/-- Claim C6: on a modeled exception `isRetryableError` returns the stored
`retryable` flag; on a foreign error it returns true exactly when some code
of the fixed transient-network list equals the error's `code` field, or
occurs as a substring of its `message`, or of its `stack`. -/
theorem isRetryableError_C6 (e : ExceptionRecord) (f : ForeignError) :
    isRetryableError (.modeled e) = e.retryable ∧
    (isRetryableError (.foreign f) = true ↔
      ∃ c ∈ retryableErrors,
        f.code = some c ∨
        (∃ m, f.message = some m ∧ strIncludes m c = true) ∨
        (∃ st, f.stack = some st ∧ strIncludes st c = true)) := by
  constructor
  · rfl
  · simp [isRetryableError, List.any_eq_true, Bool.or_eq_true, beq_iff_eq,
      optIncludes_eq_true_iff, or_assoc]

/-- Claim C6 witness: a foreign error whose message contains `ETIMEDOUT`
is classified retryable. -/
theorem isRetryableError_C6_witness :
    isRetryableError (.foreign ⟨none, some "connect ETIMEDOUT 10.0.0.1", none⟩) = true :=
  (isRetryableError_C6 (recordWithStatus 404)
      ⟨none, some "connect ETIMEDOUT 10.0.0.1", none⟩).2.mpr
    ⟨"ETIMEDOUT", by decide,
      Or.inr (Or.inl ⟨"connect ETIMEDOUT 10.0.0.1", rfl, by decide⟩)⟩

/-- Lower bound of the hundred-block each category's registry list lies in
(proof device for the disjointness of `StatusCodeCategories`). -/
def catLo : Category → Int
  | .INFORMATIONAL => 100
  | .SUCCESS => 200
  | .REDIRECTION => 300
  | .CLIENT_ERROR => 400
  | .SERVER_ERROR => 500

/-- Every code listed for a category lies in that category's hundred
block. -/
theorem isStatusCodeCategory_bounds (c : Category) (s : Int)
    (h : isStatusCodeCategory s c = true) :
    catLo c ≤ s ∧ s < catLo c + 100 := by
  cases c <;>
    simp only [isStatusCodeCategory, StatusCodeCategories, List.any_cons,
      List.any_nil, Bool.or_eq_true, beq_iff_eq, Bool.false_eq_true, or_false,
      catLo] at h ⊢ <;>
    omega

/-- The five registry lists are pairwise disjoint: a code in one category's
list is in no other's. -/
theorem isStatusCodeCategory_disjoint {c c' : Category} (hne : c ≠ c') (s : Int)
    (h : isStatusCodeCategory s c = true) : isStatusCodeCategory s c' = false := by
  by_contra hc
  have h' : isStatusCodeCategory s c' = true := by
    revert hc
    cases isStatusCodeCategory s c' <;> simp
  have h1 := isStatusCodeCategory_bounds c s h
  have h2 := isStatusCodeCategory_bounds c' s h'
  cases c <;> cases c' <;>
    first
    | exact absurd rfl hne
    | (simp only [catLo] at h1 h2; omega)

/-- Claim C10: `isStatusCodeCategory(statusCode, category)` holds exactly
when `getStatusCodeCategory(statusCode)` returns that category, and the
five registry lists are pairwise disjoint, so each status code belongs to
at most one category. -/
theorem statusCategory_C10 (s : Int) (c : Category) :
    (isStatusCodeCategory s c = true ↔ getStatusCodeCategory s = some c) ∧
    (∀ c', c' ≠ c → isStatusCodeCategory s c = true →
      isStatusCodeCategory s c' = false) := by
  constructor
  · constructor
    · intro h
      cases c with
      | INFORMATIONAL =>
        simp [getStatusCodeCategory, categoryOrder, List.find?, h]
      | SUCCESS =>
        have h0 := isStatusCodeCategory_disjoint
          (by decide : Category.SUCCESS ≠ Category.INFORMATIONAL) s h
        simp [getStatusCodeCategory, categoryOrder, List.find?, h, h0]
      | REDIRECTION =>
        have h0 := isStatusCodeCategory_disjoint
          (by decide : Category.REDIRECTION ≠ Category.INFORMATIONAL) s h
        have h1 := isStatusCodeCategory_disjoint
          (by decide : Category.REDIRECTION ≠ Category.SUCCESS) s h
        simp [getStatusCodeCategory, categoryOrder, List.find?, h, h0, h1]
      | CLIENT_ERROR =>
        have h0 := isStatusCodeCategory_disjoint
          (by decide : Category.CLIENT_ERROR ≠ Category.INFORMATIONAL) s h
        have h1 := isStatusCodeCategory_disjoint
          (by decide : Category.CLIENT_ERROR ≠ Category.SUCCESS) s h
        have h2 := isStatusCodeCategory_disjoint
          (by decide : Category.CLIENT_ERROR ≠ Category.REDIRECTION) s h
        simp [getStatusCodeCategory, categoryOrder, List.find?, h, h0, h1, h2]
      | SERVER_ERROR =>
        have h0 := isStatusCodeCategory_disjoint
          (by decide : Category.SERVER_ERROR ≠ Category.INFORMATIONAL) s h
        have h1 := isStatusCodeCategory_disjoint
          (by decide : Category.SERVER_ERROR ≠ Category.SUCCESS) s h
        have h2 := isStatusCodeCategory_disjoint
          (by decide : Category.SERVER_ERROR ≠ Category.REDIRECTION) s h
        have h3 := isStatusCodeCategory_disjoint
          (by decide : Category.SERVER_ERROR ≠ Category.CLIENT_ERROR) s h
        simp [getStatusCodeCategory, categoryOrder, List.find?, h, h0, h1, h2, h3]
    · intro h
      unfold getStatusCodeCategory at h
      simpa using List.find?_some h
  · intro c' hne h
    exact isStatusCodeCategory_disjoint (Ne.symm hne) s h

/-- Claim C10 witness: 404 is listed for `CLIENT_ERROR`, so the scan
returns exactly that category. -/
theorem statusCategory_C10_witness :
    getStatusCodeCategory 404 = some Category.CLIENT_ERROR :=
  (statusCategory_C10 404 .CLIENT_ERROR).1.mp (by decide)

/-- The branch structure of `validateRequiredFields`, keyed on whether the
filtered missing-field list is empty. -/
theorem validateRequiredFields_eq (obj : JsRecord) (fields : List String) :
    validateRequiredFields obj fields =
      if fields.filter (fun field => isMissingValue (recordGet obj field)) = [] then
        .ok ()
      else
        .error ("Missing required fields: " ++
          String.intercalate ", "
            (fields.filter (fun field => isMissingValue (recordGet obj field)))) := by
  unfold validateRequiredFields
  by_cases h : fields.filter (fun field => isMissingValue (recordGet obj field)) = []
  · simp [h]
  · have hpos : 0 < (fields.filter
        (fun field => isMissingValue (recordGet obj field))).length :=
      List.length_pos.mpr h
    simp [h, hpos]

/-- Claim C7: `validateRequiredFields(obj, fields)` succeeds exactly when
no listed field is `undefined`, `null` or `''` on `obj`; any failure
message is `Missing required fields: ` followed by exactly the missing
fields, comma-joined, in the order they appear in `fields`; and some
missing field always produces a failure.  (The embedding is a pure
function of `obj`, returning only the verdict: the object itself is not
touched.) -/
theorem validateRequiredFields_C7 (obj : JsRecord) (fields : List String) :
    (validateRequiredFields obj fields = .ok () ↔
      ∀ field ∈ fields, isMissingValue (recordGet obj field) = false) ∧
    (∀ msg, validateRequiredFields obj fields = .error msg →
      msg = "Missing required fields: " ++
        String.intercalate ", "
          (fields.filter (fun field => isMissingValue (recordGet obj field)))) ∧
    ((∃ field ∈ fields, isMissingValue (recordGet obj field) = true) →
      ∃ msg, validateRequiredFields obj fields = .error msg) := by
  rw [validateRequiredFields_eq]
  by_cases h : fields.filter (fun field => isMissingValue (recordGet obj field)) = []
  · rw [if_pos h]
    refine ⟨?_, ?_, ?_⟩
    · simp only [true_iff]
      intro field hf
      have := List.filter_eq_nil_iff.mp h field hf
      simpa using this
    · intro msg hmsg
      exact absurd hmsg (by simp)
    · rintro ⟨field, hf, hmiss⟩
      have := List.filter_eq_nil_iff.mp h field hf
      simp [hmiss] at this
  · rw [if_neg h]
    refine ⟨?_, ?_, ?_⟩
    · constructor
      · intro hcontra
        exact absurd hcontra (by simp)
      · intro hall
        exfalso
        exact h (List.filter_eq_nil_iff.mpr (fun a ha => by simp [hall a ha]))
    · intro msg hmsg
      simpa using hmsg.symm
    · intro _
      exact ⟨_, rfl⟩

/-- Claim C7 witness: the spec's examples — `{name: "John"}` fails on
`["name", "email"]` with exactly `email` listed, and the fully populated
object succeeds. -/
theorem validateRequiredFields_C7_witness :
    validateRequiredFields [("name", JsValue.str "John")] ["name", "email"] =
      .error "Missing required fields: email" ∧
    validateRequiredFields
      [("name", JsValue.str "John"), ("email", JsValue.str "j@x.com")]
      ["name", "email"] = .ok () :=
  ⟨rfl,
    (validateRequiredFields_C7
        [("name", JsValue.str "John"), ("email", JsValue.str "j@x.com")]
        ["name", "email"]).1.mpr (by decide)⟩

/-- Override precedence for one constructed field: the caller's value when
provided, else the variant preset's value, else the base contract's global
default. -/
def overrideSpec {α : Type} (provided variantDefault : Option α)
    (globalDefault result : α) : Prop :=
  (∀ v, provided = some v → result = v) ∧
  (provided = none → ∀ v, variantDefault = some v → result = v) ∧
  (provided = none → variantDefault = none → result = globalDefault)

/-- The spread-then-destructure pipeline realises the override
precedence. -/
theorem overrideSpec_or_getD {α : Type} (o p : Option α) (d : α) :
    overrideSpec o p d ((o.or p).getD d) := by
  cases o <;> cases p <;> simp [overrideSpec, Option.or]

/-- Claim C5: for every variant preset and every options object, each
constructed field equals the caller's value when provided, the variant's
preset value when only that exists, and the base contract's global default
otherwise (`message = "An error occurred"`, `statusCode = 500`,
`code = "INTERNAL_ERROR"`, `isOperational = true`, `retryable = false`,
`logLevel = error`, empty `details` and `context`); in particular the
not-found variant built with no options carries status 404 and code
`NOT_FOUND`. -/
theorem constructVariant_C5 (preset options : ExceptionOptions)
    (name : String) (now : Nat) :
    overrideSpec options.message preset.message "An error occurred"
      (constructVariant preset options name now).message ∧
    overrideSpec options.statusCode preset.statusCode 500
      (constructVariant preset options name now).statusCode ∧
    overrideSpec options.code preset.code "INTERNAL_ERROR"
      (constructVariant preset options name now).code ∧
    overrideSpec options.details preset.details []
      (constructVariant preset options name now).details ∧
    overrideSpec options.context preset.context []
      (constructVariant preset options name now).context ∧
    overrideSpec options.isOperational preset.isOperational true
      (constructVariant preset options name now).isOperational ∧
    overrideSpec options.retryable preset.retryable false
      (constructVariant preset options name now).retryable ∧
    overrideSpec options.logLevel preset.logLevel .error
      (constructVariant preset options name now).logLevel ∧
    (constructVariant notFoundPreset emptyOptions name now).statusCode = 404 ∧
    (constructVariant notFoundPreset emptyOptions name now).code = "NOT_FOUND" ∧
    (constructVariant notFoundPreset emptyOptions name now).message = "Not Found" ∧
    (constructVariant notFoundPreset emptyOptions name now).retryable = false ∧
    (constructVariant notFoundPreset emptyOptions name now).isOperational = true ∧
    (constructVariant notFoundPreset emptyOptions name now).logLevel = .error ∧
    (constructVariant notFoundPreset emptyOptions name now).details = [] :=
  ⟨overrideSpec_or_getD options.message preset.message "An error occurred",
    overrideSpec_or_getD options.statusCode preset.statusCode 500,
    overrideSpec_or_getD options.code preset.code "INTERNAL_ERROR",
    overrideSpec_or_getD options.details preset.details [],
    overrideSpec_or_getD options.context preset.context [],
    overrideSpec_or_getD options.isOperational preset.isOperational true,
    overrideSpec_or_getD options.retryable preset.retryable false,
    overrideSpec_or_getD options.logLevel preset.logLevel .error,
    rfl, rfl, rfl, rfl, rfl, rfl, rfl⟩

/-- Claim C5 witness: a caller-supplied `statusCode: 418` overrides the
not-found preset's 404, while the preset's code still overrides the
global default. -/
theorem constructVariant_C5_witness :
    (constructVariant notFoundPreset
        { emptyOptions with statusCode := some 418 } "NotFoundException" 0).statusCode
      = 418 ∧
    (constructVariant notFoundPreset
        { emptyOptions with statusCode := some 418 } "NotFoundException" 0).code
      = "NOT_FOUND" :=
  ⟨(constructVariant_C5 notFoundPreset
        { emptyOptions with statusCode := some 418 } "NotFoundException" 0).2.1.1
      418 rfl,
    (constructVariant_C5 notFoundPreset
        { emptyOptions with statusCode := some 418 } "NotFoundException" 0).2.2.1.2.1
      rfl "NOT_FOUND" rfl⟩

/-- Reading from a non-empty object: the head binding answers when its key
matches, the tail otherwise. -/
theorem recordGet_cons (k₀ : String) (v₀ : JsValue) (rest : JsRecord) (k : String) :
    recordGet ((k₀, v₀) :: rest) k = if k₀ = k then some v₀ else recordGet rest k := by
  by_cases h : k₀ = k
  · simp [recordGet, List.find?, h]
  · have hb : (k₀ == k) = false := beq_eq_false_iff_ne.mpr h
    simp [recordGet, List.find?, hb, h]

/-- Writing to a non-empty object: replace the head binding when its key
matches, recurse otherwise. -/
theorem recordSet_cons (k₀ : String) (v₀ : JsValue) (rest : JsRecord)
    (k : String) (v : JsValue) :
    recordSet ((k₀, v₀) :: rest) k v =
      if k₀ = k then (k, v) :: rest else (k₀, v₀) :: recordSet rest k v := by
  by_cases h : k₀ = k <;> simp [recordSet, h]

/-- Key presence on a non-empty object. -/
theorem recordHasKey_cons (k₀ : String) (v₀ : JsValue) (rest : JsRecord) (k : String) :
    recordHasKey ((k₀, v₀) :: rest) k = true ↔ (k₀ = k ∨ recordHasKey rest k = true) := by
  simp [recordHasKey]

/-- Writing key `k` makes a later read of `k` see the new value. -/
theorem recordGet_recordSet_self (m : JsRecord) (k : String) (v : JsValue) :
    recordGet (recordSet m k v) k = some v := by
  induction m with
  | nil => simp [recordSet, recordGet, List.find?]
  | cons p rest ih =>
    obtain ⟨k₀, v₀⟩ := p
    rw [recordSet_cons]
    by_cases h : k₀ = k
    · rw [if_pos h, recordGet_cons, if_pos rfl]
    · rw [if_neg h, recordGet_cons, if_neg h]
      exact ih

/-- Writing key `k` leaves every other key's value unchanged. -/
theorem recordGet_recordSet_ne (m : JsRecord) (k k' : String) (v : JsValue)
    (h : k' ≠ k) : recordGet (recordSet m k v) k' = recordGet m k' := by
  induction m with
  | nil =>
    have hb : (k == k') = false := beq_eq_false_iff_ne.mpr (Ne.symm h)
    simp [recordSet, recordGet, List.find?, hb]
  | cons p rest ih =>
    obtain ⟨k₀, v₀⟩ := p
    rw [recordSet_cons]
    by_cases h₀ : k₀ = k
    · subst h₀
      rw [if_pos rfl, recordGet_cons, recordGet_cons,
        if_neg (Ne.symm h), if_neg fun hk => h hk.symm]
    · rw [if_neg h₀, recordGet_cons, recordGet_cons]
      by_cases h₁ : k₀ = k'
      · rw [if_pos h₁, if_pos h₁]
      · rw [if_neg h₁, if_neg h₁]
        exact ih

/-- Writing never removes a key: every key present before stays present. -/
theorem recordHasKey_recordSet (m : JsRecord) (k k₀ : String) (v : JsValue)
    (h : recordHasKey m k₀ = true) :
    recordHasKey (recordSet m k v) k₀ = true := by
  induction m with
  | nil => simp [recordHasKey] at h
  | cons p rest ih =>
    obtain ⟨k₁, v₁⟩ := p
    rw [recordSet_cons]
    rcases (recordHasKey_cons k₁ v₁ rest k₀).mp h with h₁ | h₁
    · by_cases hk : k₁ = k
      · rw [if_pos hk]
        exact (recordHasKey_cons k v rest k₀).mpr (Or.inl (hk ▸ h₁))
      · rw [if_neg hk]
        exact (recordHasKey_cons k₁ v₁ (recordSet rest k v) k₀).mpr (Or.inl h₁)
    · by_cases hk : k₁ = k
      · rw [if_pos hk]
        exact (recordHasKey_cons k v rest k₀).mpr (Or.inr h₁)
      · rw [if_neg hk]
        exact (recordHasKey_cons k₁ v₁ (recordSet rest k v) k₀).mpr (Or.inr (ih h₁))

/-- Claim C9: `addDetail(r, k, v)` sets key `k` to `v` in the `details` map
(overwriting any prior value) and changes nothing else; `addContext` does
the same on `context`; and none of the record's mutating operations
(`addDetail`, `addContext`, `setRequestId`, `setUserId`) ever removes a key
from `details` or `context`.  (The JS methods return `this`; in the pure
embedding the returned record is the updated one.) -/
theorem addDetail_addContext_C9 (r : ExceptionRecord) (k : String) (v : JsValue) :
    recordGet (addDetail r k v).details k = some v ∧
    (∀ k', k' ≠ k →
      recordGet (addDetail r k v).details k' = recordGet r.details k') ∧
    (addDetail r k v).name = r.name ∧
    (addDetail r k v).message = r.message ∧
    (addDetail r k v).statusCode = r.statusCode ∧
    (addDetail r k v).code = r.code ∧
    (addDetail r k v).timestamp = r.timestamp ∧
    (addDetail r k v).requestId = r.requestId ∧
    (addDetail r k v).userId = r.userId ∧
    (addDetail r k v).context = r.context ∧
    (addDetail r k v).isOperational = r.isOperational ∧
    (addDetail r k v).retryable = r.retryable ∧
    (addDetail r k v).logLevel = r.logLevel ∧
    recordGet (addContext r k v).context k = some v ∧
    (∀ k', k' ≠ k →
      recordGet (addContext r k v).context k' = recordGet r.context k') ∧
    (addContext r k v).name = r.name ∧
    (addContext r k v).message = r.message ∧
    (addContext r k v).statusCode = r.statusCode ∧
    (addContext r k v).code = r.code ∧
    (addContext r k v).timestamp = r.timestamp ∧
    (addContext r k v).requestId = r.requestId ∧
    (addContext r k v).userId = r.userId ∧
    (addContext r k v).details = r.details ∧
    (addContext r k v).isOperational = r.isOperational ∧
    (addContext r k v).retryable = r.retryable ∧
    (addContext r k v).logLevel = r.logLevel ∧
    (∀ k₀, recordHasKey r.details k₀ = true →
      recordHasKey (addDetail r k v).details k₀ = true) ∧
    (∀ k₀, recordHasKey r.context k₀ = true →
      recordHasKey (addContext r k v).context k₀ = true) ∧
    (∀ id, (setRequestId r id).details = r.details ∧
      (setRequestId r id).context = r.context) ∧
    (∀ id, (setUserId r id).details = r.details ∧
      (setUserId r id).context = r.context) :=
  ⟨recordGet_recordSet_self r.details k v,
    fun k' h => recordGet_recordSet_ne r.details k k' v h,
    rfl, rfl, rfl, rfl, rfl, rfl, rfl, rfl, rfl, rfl, rfl,
    recordGet_recordSet_self r.context k v,
    fun k' h => recordGet_recordSet_ne r.context k k' v h,
    rfl, rfl, rfl, rfl, rfl, rfl, rfl, rfl, rfl, rfl, rfl,
    fun k₀ h => recordHasKey_recordSet r.details k k₀ v h,
    fun k₀ h => recordHasKey_recordSet r.context k k₀ v h,
    fun _ => ⟨rfl, rfl⟩,
    fun _ => ⟨rfl, rfl⟩⟩

/-- Claim C9 witness: enriching a concrete record stores the value under
the key, leaves the other keys readable unchanged, and keeps the status
code. -/
theorem addDetail_addContext_C9_witness :
    recordGet (addDetail (recordWithStatus 404) "field" (.str "email")).details
      "field" = some (.str "email") ∧
    recordGet (addDetail (recordWithStatus 404) "field" (.str "email")).details
      "other" = recordGet (recordWithStatus 404).details "other" ∧
    (addDetail (recordWithStatus 404) "field" (.str "email")).statusCode = 404 :=
  ⟨(addDetail_addContext_C9 (recordWithStatus 404) "field" (.str "email")).1,
    (addDetail_addContext_C9 (recordWithStatus 404) "field" (.str "email")).2.1
      "other" (by decide),
    by decide⟩

/-- Every run invokes the operation at least once. -/
theorem retryGo_calls_pos {A : Type} (op : Nat → Except ErrValue A)
    (baseDelay maxDelay : Nat) (remaining attempt : Nat) :
    1 ≤ (retryGo op baseDelay maxDelay remaining attempt).calls := by
  cases remaining with
  | zero =>
    cases hop : op attempt <;> simp [retryGo, hop]
  | succ r =>
    cases hop : op attempt with
    | ok a => simp [retryGo, hop]
    | error e =>
      by_cases hr : isRetryableError e <;> simp [retryGo, hop, hr]

/-- With `remaining` retries left, the loop performs at most
`remaining + 1` invocations. -/
theorem retryGo_calls_le {A : Type} (op : Nat → Except ErrValue A)
    (baseDelay maxDelay : Nat) :
    ∀ remaining attempt,
      (retryGo op baseDelay maxDelay remaining attempt).calls ≤ remaining + 1 := by
  intro remaining
  induction remaining with
  | zero =>
    intro attempt
    cases hop : op attempt <;> simp [retryGo, hop]
  | succ r ih =>
    intro attempt
    cases hop : op attempt with
    | ok a => simp [retryGo, hop]
    | error e =>
      by_cases hr : isRetryableError e
      · simpa [retryGo, hop, hr] using ih (attempt + 1)
      · simp [retryGo, hop, hr]

/-- One delay is slept before each retry: the delay list is one shorter
than the number of invocations, so no delay follows the final attempt. -/
theorem retryGo_delays_length {A : Type} (op : Nat → Except ErrValue A)
    (baseDelay maxDelay : Nat) :
    ∀ remaining attempt,
      (retryGo op baseDelay maxDelay remaining attempt).delays.length =
        (retryGo op baseDelay maxDelay remaining attempt).calls - 1 := by
  intro remaining
  induction remaining with
  | zero =>
    intro attempt
    cases hop : op attempt <;> simp [retryGo, hop]
  | succ r ih =>
    intro attempt
    cases hop : op attempt with
    | ok a => simp [retryGo, hop]
    | error e =>
      by_cases hr : isRetryableError e
      · have hpos := retryGo_calls_pos op baseDelay maxDelay r (attempt + 1)
        have := ih (attempt + 1)
        simp only [retryGo, hop, hr, if_true]
        simp only [List.length_cons, this]
        omega
      · simp [retryGo, hop, hr]

/-- The outcome of a run is exactly the outcome of its last invocation of
the operation: a thrown error is the last error observed, unmodified. -/
theorem retryGo_result_eq {A : Type} (op : Nat → Except ErrValue A)
    (baseDelay maxDelay : Nat) :
    ∀ remaining attempt,
      (retryGo op baseDelay maxDelay remaining attempt).result =
        op (attempt + ((retryGo op baseDelay maxDelay remaining attempt).calls - 1)) := by
  intro remaining
  induction remaining with
  | zero =>
    intro attempt
    cases hop : op attempt <;> simp [retryGo, hop]
  | succ r ih =>
    intro attempt
    cases hop : op attempt with
    | ok a => simp [retryGo, hop]
    | error e =>
      by_cases hr : isRetryableError e
      · have hpos := retryGo_calls_pos op baseDelay maxDelay r (attempt + 1)
        have hres := ih (attempt + 1)
        simp only [retryGo, hop, hr, if_true]
        rw [hres]
        congr 1
        omega
      · simp [retryGo, hop, hr]

/-- Stopping: when the `i`-th invocation (relative to the current attempt)
fails with a non-retryable error, or is the final permitted attempt
(`i = remaining`), the driver performs no further invocation and rethrows
that error. -/
theorem retryGo_stop {A : Type} (op : Nat → Except ErrValue A)
    (baseDelay maxDelay : Nat) :
    ∀ remaining attempt i e,
      i < (retryGo op baseDelay maxDelay remaining attempt).calls →
      op (attempt + i) = .error e →
      (isRetryableError e = false ∨ i = remaining) →
      (retryGo op baseDelay maxDelay remaining attempt).calls = i + 1 ∧
        (retryGo op baseDelay maxDelay remaining attempt).result = .error e := by
  intro remaining
  induction remaining with
  | zero =>
    intro attempt i e hlt hop hcond
    have hi : i = 0 := by
      have := retryGo_calls_le op baseDelay maxDelay 0 attempt
      omega
    subst hi
    rw [Nat.add_zero] at hop
    simp [retryGo, hop]
  | succ r ih =>
    intro attempt i e hlt hop hcond
    cases hop₀ : op attempt with
    | ok a =>
      exfalso
      have hcalls : (retryGo op baseDelay maxDelay (r + 1) attempt).calls = 1 := by
        simp [retryGo, hop₀]
      have hi : i = 0 := by omega
      subst hi
      rw [Nat.add_zero, hop₀] at hop
      exact Except.noConfusion hop
    | error e₀ =>
      by_cases hr : isRetryableError e₀
      · cases i with
        | zero =>
          exfalso
          rw [Nat.add_zero, hop₀] at hop
          have he : e₀ = e := by
            injection hop
          subst he
          rcases hcond with hcond | hcond
          · rw [hr] at hcond
            exact Bool.noConfusion hcond
          · exact Nat.succ_ne_zero r hcond.symm
        | succ j =>
          have hlt' : j < (retryGo op baseDelay maxDelay r (attempt + 1)).calls := by
            have hcalls : (retryGo op baseDelay maxDelay (r + 1) attempt).calls =
                (retryGo op baseDelay maxDelay r (attempt + 1)).calls + 1 := by
              simp [retryGo, hop₀, hr]
            omega
          have hop' : op (attempt + 1 + j) = .error e := by
            rw [show attempt + 1 + j = attempt + (j + 1) by omega]
            exact hop
          have hcond' : isRetryableError e = false ∨ j = r := by
            rcases hcond with hcond | hcond
            · exact Or.inl hcond
            · exact Or.inr (by omega)
          have hmain := ih (attempt + 1) j e hlt' hop' hcond'
          constructor
          · simp only [retryGo, hop₀, hr, if_true]
            omega
          · simp only [retryGo, hop₀, hr, if_true]
            exact hmain.2
      · have hcalls : (retryGo op baseDelay maxDelay (r + 1) attempt).calls = 1 := by
          simp [retryGo, hop₀, hr]
        have hi : i = 0 := by omega
        subst hi
        rw [Nat.add_zero, hop₀] at hop
        have he : e₀ = e := by injection hop
        subst he
        constructor
        · exact hcalls
        · simp [retryGo, hop₀, hr]

/-- The delays slept are exactly
`min(baseDelay * 2 ^ attemptIndex, maxDelay)` for the successive 0-based
attempt indices, in order. -/
theorem retryGo_delays_formula {A : Type} (op : Nat → Except ErrValue A)
    (baseDelay maxDelay : Nat) :
    ∀ remaining attempt,
      (retryGo op baseDelay maxDelay remaining attempt).delays =
        (List.range ((retryGo op baseDelay maxDelay remaining attempt).calls - 1)).map
          (fun i => min (baseDelay * 2 ^ (attempt + i)) maxDelay) := by
  intro remaining
  induction remaining with
  | zero =>
    intro attempt
    cases hop : op attempt <;> simp [retryGo, hop]
  | succ r ih =>
    intro attempt
    cases hop : op attempt with
    | ok a => simp [retryGo, hop]
    | error e =>
      by_cases hr : isRetryableError e
      · have hpos := retryGo_calls_pos op baseDelay maxDelay r (attempt + 1)
        have hdel := ih (attempt + 1)
        simp only [retryGo, hop, hr, if_true]
        rw [hdel]
        rw [show (retryGo op baseDelay maxDelay r (attempt + 1)).calls + 1 - 1 =
          ((retryGo op baseDelay maxDelay r (attempt + 1)).calls - 1) + 1 by omega]
        rw [List.range_succ_eq_map, List.map_cons, Nat.add_zero, List.map_map]
        congr 1
        apply List.map_congr_left
        intro i _
        simp only [Function.comp, Nat.succ_eq_add_one]
        have hexp : attempt + 1 + i = attempt + (i + 1) := by omega
        rw [hexp]
      · simp [retryGo, hop, hr]

/-- Claim C1: `retryWithBackoff(op, maxRetries, base, max)` invokes the
operation at most `maxRetries + 1` times; delays are only slept before
retries, never after the final attempt; a thrown error is the last error
observed, unmodified; and a failing attempt whose error is not retryable,
or whose 0-based index equals `maxRetries`, ends the run immediately with
that error rethrown. -/
theorem retryWithBackoff_C1 {A : Type} (op : Nat → Except ErrValue A)
    (maxRetries baseDelay maxDelay : Nat) :
    (retryWithBackoff op maxRetries baseDelay maxDelay).calls ≤ maxRetries + 1 ∧
    (retryWithBackoff op maxRetries baseDelay maxDelay).delays.length =
      (retryWithBackoff op maxRetries baseDelay maxDelay).calls - 1 ∧
    (∀ e, (retryWithBackoff op maxRetries baseDelay maxDelay).result = .error e →
      op ((retryWithBackoff op maxRetries baseDelay maxDelay).calls - 1) = .error e) ∧
    (∀ i e, i < (retryWithBackoff op maxRetries baseDelay maxDelay).calls →
      op i = .error e →
      (isRetryableError e = false ∨ i = maxRetries) →
      (retryWithBackoff op maxRetries baseDelay maxDelay).calls = i + 1 ∧
        (retryWithBackoff op maxRetries baseDelay maxDelay).result = .error e) := by
  refine ⟨retryGo_calls_le op baseDelay maxDelay maxRetries 0,
    retryGo_delays_length op baseDelay maxDelay maxRetries 0, ?_, ?_⟩
  · intro e he
    have hres := retryGo_result_eq op baseDelay maxDelay maxRetries 0
    rw [Nat.zero_add] at hres
    unfold retryWithBackoff at he ⊢
    rw [← hres]
    exact he
  · intro i e hlt hop hcond
    exact retryGo_stop op baseDelay maxDelay maxRetries 0 i e hlt
      (by rw [Nat.zero_add]; exact hop) hcond

/-- An always-failing operation throwing a retryable transient-network
error (`code: 'ECONNRESET'`). -/
def opAlwaysEconnreset : Nat → Except ErrValue Nat :=
  fun _ => .error (.foreign ⟨some "ECONNRESET", none, none⟩)

/-- Claim C1 witness: with `maxRetries = 2` and an always-failing retryable
operation, the operation runs exactly 3 times (1 initial + 2 retries) and
the original error is rethrown unmodified. -/
theorem retryWithBackoff_C1_witness :
    (retryWithBackoff opAlwaysEconnreset 2 10 100).calls = 3 ∧
    (retryWithBackoff opAlwaysEconnreset 2 10 100).result =
      .error (.foreign ⟨some "ECONNRESET", none, none⟩) :=
  (retryWithBackoff_C1 opAlwaysEconnreset 2 10 100).2.2.2 2
    (.foreign ⟨some "ECONNRESET", none, none⟩) (by decide) rfl (Or.inr rfl)

/-- Claim C2: the successive delays of a run are exactly
`min(baseDelayMs * 2 ^ attemptIndex, maxDelayMs)` for the 0-based attempt
indices `0, 1, ...` of the failing retryable attempts, and no delay ever
exceeds `maxDelayMs`. -/
theorem retryWithBackoff_C2 {A : Type} (op : Nat → Except ErrValue A)
    (maxRetries baseDelay maxDelay : Nat) :
    (retryWithBackoff op maxRetries baseDelay maxDelay).delays =
      (List.range ((retryWithBackoff op maxRetries baseDelay maxDelay).calls - 1)).map
        (fun i => min (baseDelay * 2 ^ i) maxDelay) ∧
    (∀ d, d ∈ (retryWithBackoff op maxRetries baseDelay maxDelay).delays →
      d ≤ maxDelay) := by
  have hform := retryGo_delays_formula op baseDelay maxDelay maxRetries 0
  simp only [Nat.zero_add] at hform
  refine ⟨hform, ?_⟩
  intro d hd
  unfold retryWithBackoff at hd
  rw [hform] at hd
  obtain ⟨i, _, hi⟩ := List.mem_map.mp hd
  omega

/-- An operation failing twice with a retryable error (`ETIMEDOUT` in the
message), then succeeding. -/
def opFailTwice : Nat → Except ErrValue Nat :=
  fun i =>
    if i < 2 then .error (.foreign ⟨none, some "connect ETIMEDOUT", none⟩)
    else .ok 7

/-- Claim C2 witness: with `baseDelayMs = 10`, `maxDelayMs = 100` and two
retryable failures before success, the delays are exactly 10 and 20
milliseconds, and a slept delay (20) is at most the cap. -/
theorem retryWithBackoff_C2_witness :
    (retryWithBackoff opFailTwice 3 10 100).calls = 3 ∧
    (retryWithBackoff opFailTwice 3 10 100).result = .ok 7 ∧
    (retryWithBackoff opFailTwice 3 10 100).delays = [10, 20] ∧
    (20 : Nat) ≤ 100 :=
  ⟨by decide, rfl, rfl,
    (retryWithBackoff_C2 opFailTwice 3 10 100).2 20 (by decide)⟩
